import Mathlib

/-!
Shallow embedding of the dingdong HTTP responder (src/main.go).

The program keeps process-global metrics (atomic counters plus a lazily
populated per-method map guarded by an RWMutex), a bounded channel
`bodyQueue` of captured request bodies, a pool of workers folding body
lengths into `totalBodySize`, and a shutdown sequence that stops the
listener, closes the queue, waits for the workers to drain it, and prints
a final report.

Counters are `atomic.Int64` in the source; they only ever increase by
small increments, so they are modelled as `Nat` (wraparound at 2^63 is
unreachable for any realistic run and no claim is about overflow).
The Go map `map[string]*atomic.Int64` is modelled as an association list;
the channel as a FIFO list with explicit capacity.  Concurrency is
modelled by interleaving atomic events: one completed `requestHandler`
invocation, or one worker consumption of a queued item.  Quiescent
points are exactly the states reached after a sequence of such events.
-/

namespace DingDong

/-- A byte buffer, as Go `[]byte`. -/
abbrev Bytes := List UInt8

/-- The record pushed on the body queue (src: `type RequestBody struct`). -/
structure RequestBody where
  body : Bytes
  method : String
deriving Repr, DecidableEq

/-- An inbound HTTP request, with the fields `requestHandler` reads from
`fasthttp.RequestCtx`: method, path, remote address, headers, body. -/
structure Request where
  method : String
  path : String
  remoteAddr : String
  headers : List (String × String)
  body : Bytes
deriving Repr, DecidableEq

/-- The metrics store (src: `type Metrics struct`).  `methodCounts` is the
lazily populated per-method counter map, as an association list. -/
structure Metrics where
  totalRequests : Nat
  totalBodySize : Nat
  droppedBodies : Nat
  methodCounts : List (String × Nat)
deriving Repr, DecidableEq

/-- The metrics value installed by `init()`: all counters zero, empty map. -/
def initMetrics : Metrics :=
  { totalRequests := 0, totalBodySize := 0, droppedBodies := 0, methodCounts := [] }

/-- Lookup in the method-count map (src: `metrics.methodCounts[method]`
under `RLock`).  Returns the first binding for the key. -/
def lookupCount (mc : List (String × Nat)) (m : String) : Option Nat :=
  match mc with
  | [] => none
  | (k, v) :: rest => if k = m then some v else lookupCount rest m

/-- Add one to the counter bound to `m` (src: `counter.Add(1)`).  Leaves
the map unchanged when the key is absent (the source always ensures the
key is present before this point). -/
def bumpCount (mc : List (String × Nat)) (m : String) : List (String × Nat) :=
  match mc with
  | [] => []
  | (k, v) :: rest => if k = m then (k, v + 1) :: rest else (k, v) :: bumpCount rest m

/-- The check-then-create-under-lock part of `incrementMethodCount`
(src/main.go lines 174-186): optimistic read-locked lookup; on miss take
the write lock, re-check, and create a fresh zero counter if still
absent.  The inner match mirrors the double-check under the write lock. -/
def ensureCounter (mc : List (String × Nat)) (m : String) : List (String × Nat) :=
  match lookupCount mc m with
  | some _ => mc
  | none =>
    match lookupCount mc m with
    | some _ => mc
    | none => (m, 0) :: mc

/-- src: `func incrementMethodCount(method string)` — ensure the counter
exists (double-checked locking), then `counter.Add(1)`. -/
def incrementMethodCount (mx : Metrics) (method : String) : Metrics :=
  { mx with methodCounts := bumpCount (ensureCounter mx.methodCounts method) method }

/-- Sum of all per-method counters, `Σ methodCounts[*]`. -/
def sumCounts (mc : List (String × Nat)) : Nat :=
  (mc.map Prod.snd).sum

/-- The shared mutable state: metrics plus the bounded body queue
(src: globals `metrics` and `bodyQueue`), with the channel capacity fixed
at startup (`make(chan RequestBody, *queueSize)`). -/
structure ServerState where
  metrics : Metrics
  queue : List RequestBody
  queueCap : Nat
deriving Repr, DecidableEq

/-- The state right after startup: fresh metrics, empty queue of the
configured capacity. -/
def initState (cap : Nat) : ServerState :=
  { metrics := initMetrics, queue := [], queueCap := cap }

/-- Non-blocking channel send (src: `select { case bodyQueue <- ...:
default: metrics.droppedBodies.Add(1) }`).  A buffered Go channel accepts
the value exactly when fewer than `cap` items are buffered; otherwise the
`default` branch drops the item and counts it. -/
def tryPush (st : ServerState) (rb : RequestBody) : ServerState :=
  if st.queue.length < st.queueCap then
    { st with queue := st.queue ++ [rb] }
  else
    { st with metrics :=
        { st.metrics with droppedBodies := st.metrics.droppedBodies + 1 } }

/-- Shared-state effect of one completed `requestHandler` invocation
(src/main.go lines 114-161): if the body is non-empty, copy it and attempt
the non-blocking push; then `totalRequests.Add(1)` and
`incrementMethodCount(method)`.  Setting the 200 status and the console
dump touch no shared state and are modelled separately. -/
def requestHandler (st : ServerState) (req : Request) : ServerState :=
  let st1 :=
    if 0 < req.body.length then
      tryPush st { body := req.body, method := req.method }
    else st
  let st2 := { st1 with metrics :=
      { st1.metrics with totalRequests := st1.metrics.totalRequests + 1 } }
  { st2 with metrics := incrementMethodCount st2.metrics req.method }

/-- One worker receiving one item (src: one iteration of
`for rb := range bodyQueue`): dequeue the oldest item and add its body
length to `totalBodySize`.  On an empty queue the worker is blocked, so
the state is unchanged. -/
def workerConsume (st : ServerState) : ServerState :=
  match st.queue with
  | [] => st
  | rb :: rest =>
    { st with queue := rest,
              metrics := { st.metrics with
                totalBodySize := st.metrics.totalBodySize + rb.body.length } }

/-- An atomic step of the concurrent system: one completed handler
invocation, or one worker consumption. -/
inductive Event where
  | request (req : Request)
  | consume
deriving Repr, DecidableEq

/-- Apply one event. -/
def step (st : ServerState) (e : Event) : ServerState :=
  match e with
  | .request r => requestHandler st r
  | .consume => workerConsume st

/-- Run an interleaving of handler completions and worker consumptions. -/
def run (st : ServerState) (tr : List Event) : ServerState :=
  tr.foldl step st

/-- Number of completed requests in a trace. -/
def countRequests : List Event → Nat
  | [] => 0
  | Event.request _ :: tr => countRequests tr + 1
  | Event.consume :: tr => countRequests tr

/-- Total length of all request bodies in a trace (the true ingress). -/
def ingressOf : List Event → Nat
  | [] => 0
  | Event.request r :: tr => r.body.length + ingressOf tr
  | Event.consume :: tr => ingressOf tr

/-- Bool check that an event, if it is a request, carries a non-empty
body. -/
def eventHasBody : Event → Bool
  | .request r => decide (0 < r.body.length)
  | .consume => true

/-- Total bytes in a list of queued records. -/
def qbytesList (q : List RequestBody) : Nat :=
  (q.map fun rb => rb.body.length).sum

/-- Total bytes currently sitting in the queue. -/
def qbytes (st : ServerState) : Nat :=
  qbytesList st.queue

/-- Ghost-instrumented state: the server state plus two history sums that
the program does not store — total ingress bytes and total bytes of
dropped bodies. -/
structure GhostState where
  base : ServerState
  ingressSum : Nat
  droppedLenSum : Nat

/-- Ghost step: same transition on `base`, accumulating ingress and the
length of any body rejected by the full-queue `default` branch. -/
def gstep (g : GhostState) (e : Event) : GhostState :=
  match e with
  | .request r =>
    { base := requestHandler g.base r
      ingressSum := g.ingressSum + r.body.length
      droppedLenSum := g.droppedLenSum +
        (if 0 < r.body.length ∧ ¬ g.base.queue.length < g.base.queueCap
         then r.body.length else 0) }
  | .consume => { g with base := workerConsume g.base }

/-- Ghost run. -/
def grun (g : GhostState) (tr : List Event) : GhostState :=
  tr.foldl gstep g

/-- Ghost initial state. -/
def ginit (cap : Nat) : GhostState :=
  { base := initState cap, ingressSum := 0, droppedLenSum := 0 }

/-- Sum of the lengths of the bodies dropped along a trace from startup. -/
def droppedBytes (cap : Nat) (tr : List Event) : Nat :=
  (grun (ginit cap) tr).droppedLenSum

/-- A worker's remaining loop once the queue is closed (src:
`for rb := range bodyQueue` on a closed channel): fold every remaining
item's body length into `totalBodySize`, then exit. -/
def drainList (mx : Metrics) : List RequestBody → Metrics
  | [] => mx
  | rb :: rest =>
    drainList { mx with totalBodySize := mx.totalBodySize + rb.body.length } rest

/-- State after the closed queue has been fully drained and every worker
has exited (`close(bodyQueue); wg.Wait()`). -/
def drainAll (st : ServerState) : ServerState :=
  { st with queue := [], metrics := drainList st.metrics st.queue }

/-- Check that `sub` is an initial segment of `s`. -/
def leadsWith : List Char → List Char → Bool
  | [], _ => true
  | _ :: _, [] => false
  | c :: cs, d :: ds => c == d && leadsWith cs ds

/-- Substring containment on character lists, as Go `strings.Contains`. -/
def hasSub (sub : List Char) : List Char → Bool
  | [] => sub.isEmpty
  | d :: ds => leadsWith sub (d :: ds) || hasSub sub ds

/-- src: `strings.Contains(path, "dump")`. -/
def pathTriggersDump (path : String) : Bool :=
  hasSub "dump".data path.data

/-- One line of the console dump, as printed by the `if strings.Contains`
block of `requestHandler` (src/main.go lines 123-141). -/
inductive DumpLine where
  | separator
  | title
  | methodLine (m : String)
  | pathLine (p : String)
  | remoteLine (a : String)
  | headersTitle
  | headerKV (k v : String)
  | bodySizeLine (n : Nat)
  | bodyRaw (b : Bytes)
  | bodyPlaceholder (n : Nat)
deriving Repr, DecidableEq

/-- The dump block body: the body content line is printed only when
`0 < bodyLen && bodyLen <= 1024`; the placeholder only when
`bodyLen > 1024`; nothing for an empty body. -/
def dumpLines (req : Request) : List DumpLine :=
  [DumpLine.separator, DumpLine.title, DumpLine.methodLine req.method,
   DumpLine.pathLine req.path, DumpLine.remoteLine req.remoteAddr,
   DumpLine.headersTitle]
  ++ req.headers.map (fun kv => DumpLine.headerKV kv.1 kv.2)
  ++ [DumpLine.bodySizeLine req.body.length]
  ++ (if 0 < req.body.length ∧ req.body.length ≤ 1024 then
        [DumpLine.bodyRaw req.body]
      else if 1024 < req.body.length then
        [DumpLine.bodyPlaceholder req.body.length]
      else [])
  ++ [DumpLine.separator]

/-- Console output of one `requestHandler` invocation: the dump block
exactly when the path contains "dump", nothing otherwise. -/
def consoleDump (req : Request) : List DumpLine :=
  if pathTriggersDump req.path then dumpLines req else []

/-- Go `string(b)` on a byte slice, one char per byte. -/
def bytesToString (b : Bytes) : String :=
  String.mk (b.map fun c => Char.ofNat c.toNat)

/-- Text of a dump line, following the `fmt.Printf` format strings. -/
def renderDumpLine : DumpLine → String
  | DumpLine.separator => String.mk (List.replicate 50 '-')
  | DumpLine.title => "REQUEST DUMP"
  | DumpLine.methodLine m => "Method:      " ++ m
  | DumpLine.pathLine p => "Path:        " ++ p
  | DumpLine.remoteLine a => "Remote Addr: " ++ a
  | DumpLine.headersTitle => "Headers:"
  | DumpLine.headerKV k v => "  " ++ k ++ ": " ++ v
  | DumpLine.bodySizeLine n => "Body Size:   " ++ toString n ++ " bytes"
  | DumpLine.bodyRaw b => "Body:        " ++ bytesToString b
  | DumpLine.bodyPlaceholder n =>
      "Body:        [" ++ toString n ++ " bytes - too large to display]"

/-- One observable action of a `requestHandler` invocation, in program
order (src/main.go lines 114-161). -/
inductive HAction where
  | respond (status : Nat)
  | dump
  | enqueue (rb : RequestBody)
  | drop
  | incrTotal
  | incrMethod (m : String)
deriving Repr, DecidableEq

/-- The sequence of actions one `requestHandler` invocation performs, in
the statement order of the source: set the 200 status first, then the
optional console dump, then the push attempt for a non-empty body, then
the two counter updates. -/
def requestHandlerTrace (st : ServerState) (req : Request) : List HAction :=
  [HAction.respond 200]
  ++ (if pathTriggersDump req.path then [HAction.dump] else [])
  ++ (if 0 < req.body.length then
        (if st.queue.length < st.queueCap then
          [HAction.enqueue { body := req.body, method := req.method }]
        else [HAction.drop])
      else [])
  ++ [HAction.incrTotal, HAction.incrMethod req.method]

/-- Shared-state effect of one handler action. -/
def applyH (st : ServerState) (a : HAction) : ServerState :=
  match a with
  | HAction.respond _ => st
  | HAction.dump => st
  | HAction.enqueue rb => { st with queue := st.queue ++ [rb] }
  | HAction.drop => { st with metrics :=
      { st.metrics with droppedBodies := st.metrics.droppedBodies + 1 } }
  | HAction.incrTotal => { st with metrics :=
      { st.metrics with totalRequests := st.metrics.totalRequests + 1 } }
  | HAction.incrMethod m => { st with metrics := incrementMethodCount st.metrics m }

/-- Which actions are metrics work (queue push attempt or counter
updates), as opposed to answering the client or dumping to the console. -/
def isMetricsWork : HAction → Bool
  | HAction.enqueue _ => true
  | HAction.drop => true
  | HAction.incrTotal => true
  | HAction.incrMethod _ => true
  | HAction.respond _ => false
  | HAction.dump => false

/-- The final report assembled by `displayMetrics` (src/main.go lines
191-226).  Ratios are kept as exact rationals; `fmt.Printf` later formats
them to two (percentages, KB, MB) or one (per-method) decimal places.
`avgBodyKB = none` models the explicit zero-case line
"Average Body Size:  0 KB (no request bodies)"; `droppedPct = none`
models the percentage being omitted when there are no drops. -/
structure Report where
  totalRequests : Nat
  totalBodyBytes : Nat
  totalBodyMB : ℚ
  avgBodyKB : Option ℚ
  droppedCount : Nat
  droppedPct : Option ℚ
  methodLines : List (String × Nat × ℚ)
deriving Repr, DecidableEq

/-- src: `func displayMetrics()`, reading the counters once and printing
the summary. -/
def displayMetrics (mx : Metrics) : Report :=
  let totalReqs := mx.totalRequests
  let totalBodySize := mx.totalBodySize
  let dropped := mx.droppedBodies
  { totalRequests := totalReqs
    totalBodyBytes := totalBodySize
    totalBodyMB := (totalBodySize : ℚ) / (1024 * 1024)
    avgBodyKB :=
      if 0 < totalBodySize then
        some ((totalBodySize : ℚ) / (totalReqs : ℚ) / 1024)
      else none
    droppedCount := dropped
    droppedPct :=
      if 0 < dropped then
        some ((dropped : ℚ) / (totalReqs : ℚ) * 100)
      else none
    methodLines := mx.methodCounts.map fun p =>
      (p.1, p.2, (p.2 : ℚ) / (totalReqs : ℚ) * 100) }

/-- One step of the shutdown sequence (src/main.go lines 98-111). -/
inductive LifeAction where
  | listenerShutdown
  | logError (msg : String)
  | closeQueue
  | workersExited
  | finalReport (r : Report)
deriving Repr, DecidableEq

/-- The shutdown sequence run on receipt of a termination signal, in the
statement order of `main`: `server.Shutdown()` (logging, not aborting on,
an error), `close(bodyQueue)`, `wg.Wait()` — during which the workers
drain the backlog — then `displayMetrics()` on the drained state.
`shutdownErr` is the value returned by `server.Shutdown()`. -/
def shutdownSequence (st : ServerState) (shutdownErr : Option String) :
    List LifeAction × ServerState :=
  let logActs := match shutdownErr with
    | some msg => [LifeAction.logError msg]
    | none => []
  let drained := drainAll st
  ([LifeAction.listenerShutdown] ++ logActs ++
     [LifeAction.closeQueue, LifeAction.workersExited,
      LifeAction.finalReport (displayMetrics drained.metrics)],
   drained)

/-- Folding `incrementMethodCount` over a list of method names, one call
per handled request. -/
def runCalls (calls : List String) : Metrics :=
  calls.foldl incrementMethodCount initMetrics

/-- Keys of the method-count map. -/
def countKeys (mc : List (String × Nat)) : List String :=
  mc.map Prod.fst

/-- Number of calls with a given method name. -/
def countOcc (m : String) : List String → Nat
  | [] => 0
  | c :: rest => (if c = m then 1 else 0) + countOcc m rest

/-- The status code the handler answers with; the source always sets
`fasthttp.StatusOK` (src: `ctx.SetStatusCode(fasthttp.StatusOK)`). -/
def responseStatus (_ : Request) : Nat := 200

/-- Ghost invariant: consumed bytes plus bytes still queued plus bytes of
dropped bodies account exactly for the ingress so far; and the dropped
byte sum is zero while the drop counter is zero. -/
def ghostInv (g : GhostState) : Prop :=
  g.base.metrics.totalBodySize + qbytes g.base + g.droppedLenSum = g.ingressSum
  ∧ (g.base.metrics.droppedBodies = 0 → g.droppedLenSum = 0)

/-- Safety invariant of reachable states: drops never outnumber requests,
and consumed bytes or a non-empty queue imply at least one completed
request. -/
def safeInv (st : ServerState) : Prop :=
  st.metrics.droppedBodies ≤ st.metrics.totalRequests
  ∧ (0 < st.metrics.totalBodySize → 0 < st.metrics.totalRequests)
  ∧ (st.queue ≠ [] → 0 < st.metrics.totalRequests)

/-- A 500-byte ASCII body. -/
def sampleBody (n : Nat) : Bytes :=
  List.replicate n (65 : UInt8)

/-- Concrete POST to /dump with a 2000-byte body. -/
def reqDump2000 : Request :=
  { method := "POST", path := "/dump", remoteAddr := "127.0.0.1:4242",
    headers := [("Content-Type", "text/plain")], body := sampleBody 2000 }

/-- Concrete POST to /dump with a 500-byte body. -/
def reqDump500 : Request :=
  { method := "POST", path := "/dump", remoteAddr := "127.0.0.1:4242",
    headers := [("Content-Type", "text/plain")], body := sampleBody 500 }

/-- Concrete POST with a three-byte body. -/
def reqPost3 : Request :=
  { method := "POST", path := "/ingest", remoteAddr := "10.0.0.7:555",
    headers := [], body := [1, 2, 3] }

/-- Concrete GET to /health with an empty body. -/
def reqGet : Request :=
  { method := "GET", path := "/health", remoteAddr := "10.0.0.7:556",
    headers := [], body := [] }

/-- Concrete trace: two non-empty-body requests with a consumption in
between. -/
def trW : List Event :=
  [Event.request reqPost3, Event.consume, Event.request reqPost3]

/-- Concrete trace: one non-empty-body request, then one consumption. -/
def trW2 : List Event :=
  [Event.request reqPost3, Event.consume]

/-- Concrete state with one queued record. -/
def stW : ServerState :=
  { metrics := initMetrics,
    queue := [{ body := [1, 2], method := "POST" }],
    queueCap := 2 }

/-- Concrete metrics snapshot for exercising the report. -/
def mxW : Metrics :=
  { totalRequests := 4, totalBodySize := 2048, droppedBodies := 1,
    methodCounts := [("POST", 3), ("GET", 1)] }

/-- Bumping a key maps its first binding through `+ 1`. -/
theorem lookupCount_bumpCount_self (mc : List (String × Nat)) (m : String) :
    lookupCount (bumpCount mc m) m = (lookupCount mc m).map (· + 1) := by
  induction mc with
  | nil => simp [bumpCount, lookupCount]
  | cons kv rest ih =>
    obtain ⟨k, v⟩ := kv
    by_cases h : k = m
    · simp [bumpCount, lookupCount, h]
    · simp [bumpCount, lookupCount, h, ih]

/-- Bumping one key leaves every other key's binding unchanged. -/
theorem lookupCount_bumpCount_ne (mc : List (String × Nat)) (m m' : String)
    (h : m' ≠ m) :
    lookupCount (bumpCount mc m) m' = lookupCount mc m' := by
  induction mc with
  | nil => simp [bumpCount]
  | cons kv rest ih =>
    obtain ⟨k, v⟩ := kv
    by_cases hk : k = m
    · have hkm : ¬ k = m' := fun hh => h (hh.symm.trans hk)
      simp only [bumpCount, if_pos hk, lookupCount, if_neg hkm]
    · by_cases hk2 : k = m'
      · simp only [bumpCount, if_neg hk, lookupCount, if_pos hk2]
      · simp only [bumpCount, if_neg hk, lookupCount, if_neg hk2, ih]

/-- Bumping a counter does not change the key list. -/
theorem countKeys_bumpCount (mc : List (String × Nat)) (m : String) :
    countKeys (bumpCount mc m) = countKeys mc := by
  induction mc with
  | nil => simp [bumpCount]
  | cons kv rest ih =>
    obtain ⟨k, v⟩ := kv
    by_cases h : k = m
    · simp [bumpCount, countKeys, h]
    · simp [bumpCount, countKeys, h] at ih ⊢
      exact ih

/-- A key is absent from the map exactly when lookup misses. -/
theorem lookupCount_none_iff (mc : List (String × Nat)) (m : String) :
    lookupCount mc m = none ↔ m ∉ countKeys mc := by
  induction mc with
  | nil => simp [lookupCount, countKeys]
  | cons kv rest ih =>
    obtain ⟨k, v⟩ := kv
    by_cases h : k = m
    · subst h; simp [lookupCount, countKeys]
    · simp only [lookupCount, countKeys, List.map_cons, List.mem_cons, if_neg h]
      rw [ih]
      constructor
      · intro hn hmem
        exact hmem.elim (fun he => h he.symm) hn
      · intro hn
        exact (fun hmem => hn (Or.inr hmem))

/-- Bumping a present key adds exactly one to the counter sum. -/
theorem sumCounts_bumpCount (mc : List (String × Nat)) (m : String) (v : Nat)
    (h : lookupCount mc m = some v) :
    sumCounts (bumpCount mc m) = sumCounts mc + 1 := by
  induction mc generalizing v with
  | nil => simp [lookupCount] at h
  | cons kv rest ih =>
    obtain ⟨k, w⟩ := kv
    by_cases hk : k = m
    · simp [bumpCount, sumCounts, hk]
      omega
    · simp only [lookupCount, if_neg hk] at h
      simp only [bumpCount, if_neg hk, sumCounts, List.map_cons, List.sum_cons]
      have := ih v h
      simp only [sumCounts] at this
      omega

/-- When the key is already present the create path does nothing. -/
theorem ensureCounter_some (mc : List (String × Nat)) (m : String) (v : Nat)
    (h : lookupCount mc m = some v) : ensureCounter mc m = mc := by
  simp [ensureCounter, h]

/-- When the key is absent the create path installs a zero counter. -/
theorem ensureCounter_none (mc : List (String × Nat)) (m : String)
    (h : lookupCount mc m = none) : ensureCounter mc m = (m, 0) :: mc := by
  simp [ensureCounter, h]

/-- One `incrementMethodCount` call adds exactly one to the counter sum. -/
theorem sumCounts_ensure_bump (mc : List (String × Nat)) (m : String) :
    sumCounts (bumpCount (ensureCounter mc m) m) = sumCounts mc + 1 := by
  cases h : lookupCount mc m with
  | some v =>
    rw [ensureCounter_some mc m v h]
    exact sumCounts_bumpCount mc m v h
  | none =>
    rw [ensureCounter_none mc m h]
    have hz : lookupCount ((m, 0) :: mc) m = some 0 := by simp [lookupCount]
    rw [sumCounts_bumpCount _ m 0 hz]
    simp [sumCounts]

/-- After one `incrementMethodCount` call, the called method's counter
reads one more than before (zero counting as the before-value on the
create path). -/
theorem lookupCount_ensure_bump_self (mc : List (String × Nat)) (m : String) :
    lookupCount (bumpCount (ensureCounter mc m) m) m
      = some ((lookupCount mc m).getD 0 + 1) := by
  cases h : lookupCount mc m with
  | some v =>
    rw [ensureCounter_some mc m v h, lookupCount_bumpCount_self, h]
    rfl
  | none =>
    rw [ensureCounter_none mc m h, lookupCount_bumpCount_self]
    simp [lookupCount]

/-- One `incrementMethodCount` call leaves every other method's counter
unchanged. -/
theorem lookupCount_ensure_bump_ne (mc : List (String × Nat)) (m m' : String)
    (h : m' ≠ m) :
    lookupCount (bumpCount (ensureCounter mc m) m) m' = lookupCount mc m' := by
  rw [lookupCount_bumpCount_ne _ _ _ h]
  cases hx : lookupCount mc m with
  | some v => rw [ensureCounter_some mc m v hx]
  | none =>
    rw [ensureCounter_none mc m hx]
    simp only [lookupCount]
    rw [if_neg (fun hh : m = m' => h hh.symm)]

/-- `incrementMethodCount` preserves uniqueness of the key list, creating
at most one entry per method. -/
theorem nodup_increment (mx : Metrics) (m : String)
    (h : (countKeys mx.methodCounts).Nodup) :
    (countKeys (incrementMethodCount mx m).methodCounts).Nodup := by
  show (countKeys (bumpCount (ensureCounter mx.methodCounts m) m)).Nodup
  rw [countKeys_bumpCount]
  cases hx : lookupCount mx.methodCounts m with
  | some v => rw [ensureCounter_some _ m v hx]; exact h
  | none =>
    rw [ensureCounter_none _ m hx]
    have hm : m ∉ countKeys mx.methodCounts := (lookupCount_none_iff _ m).mp hx
    simp only [countKeys, List.map_cons]
    exact List.Nodup.cons (by simpa [countKeys] using hm) (by simpa [countKeys] using h)

/-- Fold preservation of an invariant. -/
theorem foldl_preserve {σ α : Type} (f : σ → α → σ) (P : σ → Prop)
    (hf : ∀ s a, P s → P (f s a)) :
    ∀ (l : List α) (s : σ), P s → P (l.foldl f s) := by
  intro l
  induction l with
  | nil => intro s hs; simpa using hs
  | cons a l ih => intro s hs; simpa using ih (f s a) (hf s a hs)

/-- Unfolding an empty run. -/
theorem run_nil (st : ServerState) : run st [] = st := rfl

/-- Unfolding one step of a run. -/
theorem run_cons (st : ServerState) (e : Event) (tr : List Event) :
    run st (e :: tr) = run (step st e) tr := rfl

/-- The handler always adds exactly one to `totalRequests`. -/
theorem requestHandler_totalRequests (st : ServerState) (req : Request) :
    (requestHandler st req).metrics.totalRequests = st.metrics.totalRequests + 1 := by
  by_cases hb : 0 < req.body.length <;>
    by_cases hq : st.queue.length < st.queueCap <;>
      simp [requestHandler, tryPush, incrementMethodCount, hb, hq]

/-- The handler never touches `totalBodySize`. -/
theorem requestHandler_totalBodySize (st : ServerState) (req : Request) :
    (requestHandler st req).metrics.totalBodySize = st.metrics.totalBodySize := by
  by_cases hb : 0 < req.body.length <;>
    by_cases hq : st.queue.length < st.queueCap <;>
      simp [requestHandler, tryPush, incrementMethodCount, hb, hq]

/-- The handler never changes the queue capacity. -/
theorem requestHandler_queueCap (st : ServerState) (req : Request) :
    (requestHandler st req).queueCap = st.queueCap := by
  by_cases hb : 0 < req.body.length <;>
    by_cases hq : st.queue.length < st.queueCap <;>
      simp [requestHandler, tryPush, incrementMethodCount, hb, hq]

/-- The handler's effect on the method-count map is exactly one
double-checked ensure-then-bump of its own method. -/
theorem requestHandler_methodCounts (st : ServerState) (req : Request) :
    (requestHandler st req).metrics.methodCounts
      = bumpCount (ensureCounter st.metrics.methodCounts req.method) req.method := by
  by_cases hb : 0 < req.body.length <;>
    by_cases hq : st.queue.length < st.queueCap <;>
      simp [requestHandler, tryPush, incrementMethodCount, hb, hq]

/-- Non-empty body with a non-full queue: the record is appended and no
drop is counted. -/
theorem requestHandler_push_room (st : ServerState) (req : Request)
    (hb : 0 < req.body.length) (hq : st.queue.length < st.queueCap) :
    (requestHandler st req).queue
        = st.queue ++ [{ body := req.body, method := req.method }]
    ∧ (requestHandler st req).metrics.droppedBodies = st.metrics.droppedBodies := by
  constructor <;> simp [requestHandler, tryPush, incrementMethodCount, hb, hq]

/-- Non-empty body with a full queue: the record is discarded and the
drop counter goes up by one. -/
theorem requestHandler_push_full (st : ServerState) (req : Request)
    (hb : 0 < req.body.length) (hq : ¬ st.queue.length < st.queueCap) :
    (requestHandler st req).queue = st.queue
    ∧ (requestHandler st req).metrics.droppedBodies
        = st.metrics.droppedBodies + 1 := by
  constructor <;> simp [requestHandler, tryPush, incrementMethodCount, hb, hq]

/-- Empty body: no push attempt, queue and drop counter untouched. -/
theorem requestHandler_empty (st : ServerState) (req : Request)
    (hb : req.body.length = 0) :
    (requestHandler st req).queue = st.queue
    ∧ (requestHandler st req).metrics.droppedBodies = st.metrics.droppedBodies := by
  constructor <;> simp [requestHandler, tryPush, incrementMethodCount, hb]

/-- A consumption never changes `totalRequests`. -/
theorem workerConsume_totalRequests (st : ServerState) :
    (workerConsume st).metrics.totalRequests = st.metrics.totalRequests := by
  cases hq : st.queue <;> simp [workerConsume, hq]

/-- A consumption never changes `droppedBodies`. -/
theorem workerConsume_droppedBodies (st : ServerState) :
    (workerConsume st).metrics.droppedBodies = st.metrics.droppedBodies := by
  cases hq : st.queue <;> simp [workerConsume, hq]

/-- A consumption never changes the method counts. -/
theorem workerConsume_methodCounts (st : ServerState) :
    (workerConsume st).metrics.methodCounts = st.metrics.methodCounts := by
  cases hq : st.queue <;> simp [workerConsume, hq]

/-- A consumption never changes the queue capacity. -/
theorem workerConsume_queueCap (st : ServerState) :
    (workerConsume st).queueCap = st.queueCap := by
  cases hq : st.queue <;> simp [workerConsume, hq]

/-- A consumption moves bytes from the queue into `totalBodySize`. -/
theorem workerConsume_conservation (st : ServerState) :
    (workerConsume st).metrics.totalBodySize + qbytes (workerConsume st)
      = st.metrics.totalBodySize + qbytes st := by
  cases hq : st.queue with
  | nil => simp [workerConsume, hq]
  | cons rb rest =>
    simp [workerConsume, hq, qbytes, qbytesList]
    omega

/-- Running a trace adds one to `totalRequests` per request event. -/
theorem run_totalRequests : ∀ (tr : List Event) (st : ServerState),
    (run st tr).metrics.totalRequests
      = st.metrics.totalRequests + countRequests tr := by
  intro tr
  induction tr with
  | nil => intro st; simp [run_nil, countRequests]
  | cons e tr ih =>
    intro st
    rw [run_cons, ih]
    cases e with
    | request r =>
      simp only [step, countRequests, requestHandler_totalRequests]
      omega
    | consume =>
      simp only [step, countRequests, workerConsume_totalRequests]

/-- Draining adds every queued record's body length to `totalBodySize`. -/
theorem drainList_totalBodySize : ∀ (q : List RequestBody) (mx : Metrics),
    (drainList mx q).totalBodySize = mx.totalBodySize + qbytesList q := by
  intro q
  induction q with
  | nil => intro mx; simp [drainList, qbytesList]
  | cons rb rest ih =>
    intro mx
    simp only [drainList]
    rw [ih]
    simp [qbytesList]
    omega

/-- Draining never changes `totalRequests`. -/
theorem drainList_totalRequests : ∀ (q : List RequestBody) (mx : Metrics),
    (drainList mx q).totalRequests = mx.totalRequests := by
  intro q
  induction q with
  | nil => intro mx; simp [drainList]
  | cons rb rest ih => intro mx; simp only [drainList]; rw [ih]

/-- Draining never changes `droppedBodies`. -/
theorem drainList_droppedBodies : ∀ (q : List RequestBody) (mx : Metrics),
    (drainList mx q).droppedBodies = mx.droppedBodies := by
  intro q
  induction q with
  | nil => intro mx; simp [drainList]
  | cons rb rest ih => intro mx; simp only [drainList]; rw [ih]

/-- Draining never changes the method counts. -/
theorem drainList_methodCounts : ∀ (q : List RequestBody) (mx : Metrics),
    (drainList mx q).methodCounts = mx.methodCounts := by
  intro q
  induction q with
  | nil => intro mx; simp [drainList]
  | cons rb rest ih => intro mx; simp only [drainList]; rw [ih]

/-- After the drain the queue is empty. -/
theorem drainAll_queue (st : ServerState) : (drainAll st).queue = [] := rfl

/-- Full drain consumes exactly the queued bytes. -/
theorem drainAll_totalBodySize (st : ServerState) :
    (drainAll st).metrics.totalBodySize
      = st.metrics.totalBodySize + qbytes st := by
  simp [drainAll, drainList_totalBodySize, qbytes]

/-- Full drain leaves `totalRequests` unchanged. -/
theorem drainAll_totalRequests (st : ServerState) :
    (drainAll st).metrics.totalRequests = st.metrics.totalRequests := by
  simp [drainAll, drainList_totalRequests]

/-- Full drain leaves `droppedBodies` unchanged. -/
theorem drainAll_droppedBodies (st : ServerState) :
    (drainAll st).metrics.droppedBodies = st.metrics.droppedBodies := by
  simp [drainAll, drainList_droppedBodies]

/-- Unfolding one ghost step. -/
theorem grun_cons (g : GhostState) (e : Event) (tr : List Event) :
    grun g (e :: tr) = grun (gstep g e) tr := rfl

/-- The ghost step projects onto the ordinary step. -/
theorem gstep_base (g : GhostState) (e : Event) :
    (gstep g e).base = step g.base e := by
  cases e <;> rfl

/-- The ghost run projects onto the ordinary run. -/
theorem grun_base : ∀ (tr : List Event) (g : GhostState),
    (grun g tr).base = run g.base tr := by
  intro tr
  induction tr with
  | nil => intro g; rfl
  | cons e tr ih =>
    intro g
    rw [grun_cons, run_cons, ih, gstep_base]

/-- The ghost ingress sum accumulates exactly the trace's ingress. -/
theorem grun_ingress : ∀ (tr : List Event) (g : GhostState),
    (grun g tr).ingressSum = g.ingressSum + ingressOf tr := by
  intro tr
  induction tr with
  | nil => intro g; simp [grun, ingressOf]
  | cons e tr ih =>
    intro g
    rw [grun_cons, ih]
    cases e with
    | request r => simp only [gstep, ingressOf]; omega
    | consume => simp only [gstep, ingressOf]

/-- One ghost step preserves the byte-accounting invariant. -/
theorem gstep_inv (g : GhostState) (e : Event) (h : ghostInv g) :
    ghostInv (gstep g e) := by
  obtain ⟨h1, h2⟩ := h
  cases e with
  | consume =>
    refine ⟨?_, ?_⟩
    · show (workerConsume g.base).metrics.totalBodySize + qbytes (workerConsume g.base)
          + g.droppedLenSum = g.ingressSum
      rw [workerConsume_conservation]
      exact h1
    · show (workerConsume g.base).metrics.droppedBodies = 0 → g.droppedLenSum = 0
      rw [workerConsume_droppedBodies]
      exact h2
  | request r =>
    by_cases hb : 0 < r.body.length
    · by_cases hq : g.base.queue.length < g.base.queueCap
      · obtain ⟨hqueue, hdrop⟩ := requestHandler_push_room g.base r hb hq
        refine ⟨?_, ?_⟩
        · show (requestHandler g.base r).metrics.totalBodySize
              + qbytes (requestHandler g.base r)
              + (g.droppedLenSum + _) = g.ingressSum + r.body.length
          rw [requestHandler_totalBodySize]
          simp only [qbytes, hqueue, qbytesList, List.map_append, List.sum_append,
            List.map_cons, List.sum_cons, List.map_nil, List.sum_nil]
          rw [if_neg (by intro hc; exact hc.2 hq)]
          simp only [qbytes, qbytesList] at h1
          omega
        · show (requestHandler g.base r).metrics.droppedBodies = 0 →
              g.droppedLenSum + _ = 0
          rw [hdrop, if_neg (by intro hc; exact hc.2 hq)]
          intro hz
          simpa using h2 hz
      · obtain ⟨hqueue, hdrop⟩ := requestHandler_push_full g.base r hb hq
        refine ⟨?_, ?_⟩
        · show (requestHandler g.base r).metrics.totalBodySize
              + qbytes (requestHandler g.base r)
              + (g.droppedLenSum + _) = g.ingressSum + r.body.length
          rw [requestHandler_totalBodySize]
          simp only [qbytes, hqueue]
          rw [if_pos ⟨hb, hq⟩]
          simp only [qbytes] at h1
          omega
        · show (requestHandler g.base r).metrics.droppedBodies = 0 →
              g.droppedLenSum + _ = 0
          rw [hdrop]
          intro hz
          omega
    · have hb0 : r.body.length = 0 := by omega
      obtain ⟨hqueue, hdrop⟩ := requestHandler_empty g.base r hb0
      refine ⟨?_, ?_⟩
      · show (requestHandler g.base r).metrics.totalBodySize
            + qbytes (requestHandler g.base r)
            + (g.droppedLenSum + _) = g.ingressSum + r.body.length
        rw [requestHandler_totalBodySize]
        simp only [qbytes, hqueue]
        rw [if_neg (by intro hc; exact hb hc.1)]
        simp only [qbytes] at h1
        omega
      · show (requestHandler g.base r).metrics.droppedBodies = 0 →
            g.droppedLenSum + _ = 0
        rw [hdrop, if_neg (by intro hc; exact hb hc.1)]
        intro hz
        simpa using h2 hz

/-- The byte-accounting invariant holds along every run from startup. -/
theorem grun_inv (cap : Nat) (tr : List Event) :
    ghostInv (grun (ginit cap) tr) := by
  refine foldl_preserve gstep ghostInv gstep_inv tr (ginit cap) ?_
  refine ⟨?_, fun _ => rfl⟩
  simp [ginit, initState, initMetrics, qbytes, qbytesList]

/-- One step preserves the counter-safety invariant. -/
theorem step_safeInv (st : ServerState) (e : Event) (h : safeInv st) :
    safeInv (step st e) := by
  obtain ⟨h1, h2, h3⟩ := h
  cases e with
  | request r =>
    have htot := requestHandler_totalRequests st r
    have hbody := requestHandler_totalBodySize st r
    refine ⟨?_, ?_, ?_⟩
    · by_cases hb : 0 < r.body.length
      · by_cases hq : st.queue.length < st.queueCap
        · have := (requestHandler_push_room st r hb hq).2
          simp only [step]; omega
        · have := (requestHandler_push_full st r hb hq).2
          simp only [step]; omega
      · have := (requestHandler_empty st r (by omega)).2
        simp only [step]; omega
    · simp only [step]; omega
    · simp only [step]; intro _; omega
  | consume =>
    cases hq : st.queue with
    | nil =>
      simp only [step, workerConsume, hq]
      exact ⟨h1, h2, h3⟩
    | cons rb rest =>
      have hne : st.queue ≠ [] := by rw [hq]; exact List.cons_ne_nil _ _
      have hpos := h3 hne
      simp only [step, workerConsume, hq]
      refine ⟨h1, fun _ => hpos, fun _ => hpos⟩

/-- The counter-safety invariant holds along every run from startup. -/
theorem run_safeInv (cap : Nat) (tr : List Event) :
    safeInv (run (initState cap) tr) := by
  refine foldl_preserve step safeInv step_safeInv tr (initState cap) ?_
  refine ⟨?_, ?_, ?_⟩ <;> simp [initState, initMetrics]

/-- Reading the called method's counter after one call. -/
theorem incrementMethodCount_lookup_self (mx : Metrics) (m : String) :
    lookupCount (incrementMethodCount mx m).methodCounts m
      = some ((lookupCount mx.methodCounts m).getD 0 + 1) :=
  lookupCount_ensure_bump_self _ _

/-- Reading any other method's counter after one call. -/
theorem incrementMethodCount_lookup_ne (mx : Metrics) (m m' : String)
    (h : m' ≠ m) :
    lookupCount (incrementMethodCount mx m).methodCounts m'
      = lookupCount mx.methodCounts m' :=
  lookupCount_ensure_bump_ne _ _ _ h

/-- One call adds exactly one to the total of all method counters. -/
theorem incrementMethodCount_sum (mx : Metrics) (m : String) :
    sumCounts (incrementMethodCount mx m).methodCounts
      = sumCounts mx.methodCounts + 1 :=
  sumCounts_ensure_bump _ _

/-- Folding calls over the store: each method's counter ends at its
previous value plus the number of calls naming it, existing exactly when
it existed before or some call named it. -/
theorem foldl_increment_lookup : ∀ (calls : List String) (mx : Metrics) (m : String),
    lookupCount (calls.foldl incrementMethodCount mx).methodCounts m
      = (match lookupCount mx.methodCounts m with
         | some v => some (v + countOcc m calls)
         | none => if countOcc m calls = 0 then none
                   else some (countOcc m calls)) := by
  intro calls
  induction calls with
  | nil =>
    intro mx m
    cases h : lookupCount mx.methodCounts m <;> simp [countOcc, h]
  | cons c rest ih =>
    intro mx m
    rw [List.foldl_cons, ih]
    by_cases hc : c = m
    · subst hc
      rw [incrementMethodCount_lookup_self]
      cases h : lookupCount mx.methodCounts c with
      | some v =>
        simp [h, countOcc]
        omega
      | none =>
        simp [h, countOcc]
    · have hne : m ≠ c := fun hh => hc hh.symm
      rw [incrementMethodCount_lookup_ne mx c m hne]
      simp only [countOcc, if_neg hc, Nat.zero_add]

/-- C2: at every quiescent point — any state reached by a sequence of
completed handler invocations and worker consumptions from startup —
`totalRequests` equals the sum over all methods of `methodCounts`,
because each completed invocation increments `totalRequests` once and its
method's counter once. -/
theorem totalRequests_eq_sum_methodCounts (cap : Nat) (tr : List Event) :
    (run (initState cap) tr).metrics.totalRequests
      = sumCounts (run (initState cap) tr).metrics.methodCounts := by
  refine foldl_preserve step
    (fun st => st.metrics.totalRequests = sumCounts st.metrics.methodCounts)
    ?_ tr (initState cap) ?_
  · intro st e h
    cases e with
    | request r =>
      show (requestHandler st r).metrics.totalRequests
          = sumCounts (requestHandler st r).metrics.methodCounts
      rw [requestHandler_totalRequests, requestHandler_methodCounts,
        sumCounts_ensure_bump, h]
    | consume =>
      show (workerConsume st).metrics.totalRequests
          = sumCounts (workerConsume st).metrics.methodCounts
      rw [workerConsume_totalRequests, workerConsume_methodCounts, h]
  · simp [initState, initMetrics, sumCounts]

/-- C5: after any sequence of `incrementMethodCount` calls from the
initial empty store, the key list has no duplicates (at most one counter
object per distinct method), and each method's counter exists exactly
when some call named it, holding exactly the number of such calls. -/
theorem methodCounts_unique_and_exact (calls : List String) (m : String) :
    (countKeys (runCalls calls).methodCounts).Nodup
    ∧ lookupCount (runCalls calls).methodCounts m
        = (if countOcc m calls = 0 then none else some (countOcc m calls)) := by
  constructor
  · refine foldl_preserve incrementMethodCount
      (fun mx => (countKeys mx.methodCounts).Nodup)
      (fun mx a h => nodup_increment mx a h) calls initMetrics ?_
    simp [initMetrics, countKeys]
  · show lookupCount (calls.foldl incrementMethodCount initMetrics).methodCounts m = _
    rw [foldl_increment_lookup]
    simp [initMetrics, lookupCount]

/-- C1: for every interleaving of N completed requests (all with
non-empty bodies) and worker consumptions from startup in which no
non-blocking push was ever rejected (the drop counter stays zero), after
the queue is fully drained `totalRequests` is N, `totalBodySize` is the
sum of all request body lengths, and `droppedBodies` is zero. -/
theorem totals_drop_free_run (cap : Nat) (tr : List Event)
    (_hbody : ∀ e ∈ tr, eventHasBody e = true)
    (hnodrop : (run (initState cap) tr).metrics.droppedBodies = 0) :
    (drainAll (run (initState cap) tr)).metrics.totalRequests = countRequests tr
    ∧ (drainAll (run (initState cap) tr)).metrics.totalBodySize = ingressOf tr
    ∧ (drainAll (run (initState cap) tr)).metrics.droppedBodies = 0 := by
  obtain ⟨h1, h2⟩ := grun_inv cap tr
  rw [grun_base] at h1 h2
  have hing := grun_ingress tr (ginit cap)
  simp only [ginit] at h1 h2 hing
  have hdls := h2 hnodrop
  refine ⟨?_, ?_, ?_⟩
  · rw [drainAll_totalRequests, run_totalRequests]
    simp [initState, initMetrics]
  · rw [drainAll_totalBodySize]
    omega
  · rw [drainAll_droppedBodies]
    exact hnodrop

/-- C1 witness: a concrete saturation-free interleaving of two non-empty
requests and a consumption on a capacity-2 queue. -/
theorem totals_drop_free_run_witness :
    (drainAll (run (initState 2) trW)).metrics.totalRequests = countRequests trW
    ∧ (drainAll (run (initState 2) trW)).metrics.totalBodySize = ingressOf trW
    ∧ (drainAll (run (initState 2) trW)).metrics.droppedBodies = 0 :=
  totals_drop_free_run 2 trW (by decide) (by decide)

/-- C3: a non-empty-body request enqueues its copied body and leaves the
drop counter alone exactly when the queue has free capacity, and discards
the body while adding exactly one to the drop counter exactly when it is
full; globally, after a full drain the consumed byte total falls short of
the true ingress by exactly the summed lengths of the dropped bodies. -/
theorem push_drop_accounting :
    (∀ (st : ServerState) (req : Request), 0 < req.body.length →
      (st.queue.length < st.queueCap →
        (requestHandler st req).queue
            = st.queue ++ [{ body := req.body, method := req.method }]
        ∧ (requestHandler st req).metrics.droppedBodies
            = st.metrics.droppedBodies)
      ∧ (¬ st.queue.length < st.queueCap →
        (requestHandler st req).queue = st.queue
        ∧ (requestHandler st req).metrics.droppedBodies
            = st.metrics.droppedBodies + 1))
    ∧ (∀ (cap : Nat) (tr : List Event),
        (drainAll (run (initState cap) tr)).metrics.totalBodySize
            + droppedBytes cap tr = ingressOf tr) := by
  constructor
  · intro st req hb
    exact ⟨fun hq => requestHandler_push_room st req hb hq,
           fun hq => requestHandler_push_full st req hb hq⟩
  · intro cap tr
    obtain ⟨h1, _⟩ := grun_inv cap tr
    rw [grun_base] at h1
    have hing := grun_ingress tr (ginit cap)
    simp only [ginit] at h1 hing
    rw [drainAll_totalBodySize]
    simp only [droppedBytes, ginit]
    omega

/-- C3 witness: a successful push on an empty capacity-1 queue, and the
byte accounting on a concrete drop-free trace. -/
theorem push_drop_accounting_witness :
    ((requestHandler (initState 1) reqPost3).queue
        = (initState 1).queue
            ++ [{ body := reqPost3.body, method := reqPost3.method }]
      ∧ (requestHandler (initState 1) reqPost3).metrics.droppedBodies
          = (initState 1).metrics.droppedBodies)
    ∧ (drainAll (run (initState 1) trW)).metrics.totalBodySize
        + droppedBytes 1 trW = ingressOf trW :=
  ⟨(push_drop_accounting.1 (initState 1) reqPost3 (by decide)).1 (by decide),
   push_drop_accounting.2 1 trW⟩

/-- C7: a request with an empty body answers 200, adds one to
`totalRequests` and to its method's counter, and changes nothing else:
the queue, every other method's counter, `totalBodySize`, `droppedBodies`
and the capacity are untouched. -/
theorem empty_body_frame (st : ServerState) (req : Request)
    (hb : req.body.length = 0) :
    responseStatus req = 200
    ∧ (requestHandler st req).queue = st.queue
    ∧ (requestHandler st req).metrics.totalRequests
        = st.metrics.totalRequests + 1
    ∧ lookupCount (requestHandler st req).metrics.methodCounts req.method
        = some ((lookupCount st.metrics.methodCounts req.method).getD 0 + 1)
    ∧ (∀ m, m ≠ req.method →
        lookupCount (requestHandler st req).metrics.methodCounts m
          = lookupCount st.metrics.methodCounts m)
    ∧ (requestHandler st req).metrics.totalBodySize = st.metrics.totalBodySize
    ∧ (requestHandler st req).metrics.droppedBodies = st.metrics.droppedBodies
    ∧ (requestHandler st req).queueCap = st.queueCap := by
  refine ⟨rfl, (requestHandler_empty st req hb).1,
    requestHandler_totalRequests st req, ?_, ?_,
    requestHandler_totalBodySize st req,
    (requestHandler_empty st req hb).2,
    requestHandler_queueCap st req⟩
  · rw [requestHandler_methodCounts]
    exact lookupCount_ensure_bump_self _ _
  · intro m hm
    rw [requestHandler_methodCounts]
    exact lookupCount_ensure_bump_ne _ _ _ hm

/-- C7 witness: a concrete GET to /health with an empty body. -/
theorem empty_body_frame_witness :
    (requestHandler (initState 2) reqGet).queue = (initState 2).queue
    ∧ (requestHandler (initState 2) reqGet).metrics.totalRequests
        = (initState 2).metrics.totalRequests + 1
    ∧ lookupCount (requestHandler (initState 2) reqGet).metrics.methodCounts
          reqGet.method
        = some ((lookupCount (initState 2).metrics.methodCounts
            reqGet.method).getD 0 + 1)
    ∧ (requestHandler (initState 2) reqGet).metrics.totalBodySize
        = (initState 2).metrics.totalBodySize :=
  ⟨(empty_body_frame (initState 2) reqGet rfl).2.1,
   (empty_body_frame (initState 2) reqGet rfl).2.2.1,
   (empty_body_frame (initState 2) reqGet rfl).2.2.2.1,
   (empty_body_frame (initState 2) reqGet rfl).2.2.2.2.2.1⟩

/-- C10: in every state reachable by completed handler invocations and
worker consumptions, drops never outnumber requests and consumed bytes
imply at least one request; hence both guarded divisions of the final
report (the drop percentage, guarded by a positive drop count, and the
average body size, guarded by positive consumed bytes) run only with a
positive `totalRequests`. -/
theorem counters_division_safety (cap : Nat) (tr : List Event) :
    ((run (initState cap) tr).metrics.droppedBodies
        ≤ (run (initState cap) tr).metrics.totalRequests)
    ∧ (0 < (run (initState cap) tr).metrics.totalBodySize →
        0 < (run (initState cap) tr).metrics.totalRequests)
    ∧ (0 < (run (initState cap) tr).metrics.droppedBodies →
        0 < (run (initState cap) tr).metrics.totalRequests)
    ∧ ((displayMetrics (drainAll (run (initState cap) tr)).metrics).droppedPct.isSome →
        0 < (drainAll (run (initState cap) tr)).metrics.totalRequests)
    ∧ ((displayMetrics (drainAll (run (initState cap) tr)).metrics).avgBodyKB.isSome →
        0 < (drainAll (run (initState cap) tr)).metrics.totalRequests) := by
  obtain ⟨h1, h2, h3⟩ := run_safeInv cap tr
  refine ⟨h1, h2, fun hd => lt_of_lt_of_le hd h1, ?_, ?_⟩
  · intro hsome
    by_cases hd : 0 < (drainAll (run (initState cap) tr)).metrics.droppedBodies
    · rw [drainAll_totalRequests]
      rw [drainAll_droppedBodies] at hd
      exact lt_of_lt_of_le hd h1
    · exfalso
      revert hsome
      simp [displayMetrics, hd]
  · intro hsome
    by_cases hb : 0 < (drainAll (run (initState cap) tr)).metrics.totalBodySize
    · rw [drainAll_totalRequests]
      rw [drainAll_totalBodySize] at hb
      by_cases hb0 : 0 < (run (initState cap) tr).metrics.totalBodySize
      · exact h2 hb0
      · have hq : 0 < qbytes (run (initState cap) tr) := by omega
        refine h3 ?_
        intro hnil
        rw [qbytes, hnil] at hq
        simp [qbytesList] at hq
    · exfalso
      revert hsome
      simp [displayMetrics, hb]

/-- C10 witness: a concrete run of one non-empty request and one
consumption. -/
theorem counters_division_safety_witness :
    ((run (initState 1) trW2).metrics.droppedBodies
        ≤ (run (initState 1) trW2).metrics.totalRequests)
    ∧ 0 < (drainAll (run (initState 1) trW2)).metrics.totalRequests :=
  ⟨(counters_division_safety 1 trW2).1,
   (counters_division_safety 1 trW2).2.2.2.2 (by decide)⟩

/-- C4: the shutdown sequence starts with the listener shutdown, then —
whatever the listener-shutdown outcome — closes the queue, then has every
worker exit, then reads the metrics for the final report; a shutdown
error is logged but does not abort the sequence; the workers exit only
after the closed queue is fully drained, every remaining item's body
length having been added to `totalBodySize`, and the other counters are
unchanged by the drain. -/
theorem shutdown_order_and_drain (st : ServerState) (err : Option String) :
    (shutdownSequence st err).1.head? = some LifeAction.listenerShutdown
    ∧ (∃ pre, (shutdownSequence st err).1
        = LifeAction.listenerShutdown :: pre
            ++ [LifeAction.closeQueue, LifeAction.workersExited,
                LifeAction.finalReport (displayMetrics (drainAll st).metrics)])
    ∧ (∀ msg, err = some msg →
        LifeAction.logError msg ∈ (shutdownSequence st err).1)
    ∧ (shutdownSequence st err).2.queue = []
    ∧ (shutdownSequence st err).2.metrics.totalBodySize
        = st.metrics.totalBodySize + qbytes st
    ∧ (shutdownSequence st err).2.metrics.totalRequests
        = st.metrics.totalRequests
    ∧ (shutdownSequence st err).2.metrics.droppedBodies
        = st.metrics.droppedBodies := by
  cases err with
  | none =>
    refine ⟨rfl, ⟨[], rfl⟩, ?_, rfl, drainAll_totalBodySize st,
      drainAll_totalRequests st, drainAll_droppedBodies st⟩
    intro msg hmsg
    exact absurd hmsg (by simp)
  | some emsg =>
    refine ⟨rfl, ⟨[LifeAction.logError emsg], rfl⟩, ?_, rfl,
      drainAll_totalBodySize st, drainAll_totalRequests st,
      drainAll_droppedBodies st⟩
    intro msg hmsg
    have hm : emsg = msg := by
      injection hmsg
    subst hm
    simp [shutdownSequence]

/-- C4 witness: the sequence on a concrete state with one queued record
and a concrete shutdown error. -/
theorem shutdown_order_and_drain_witness :
    LifeAction.logError "shutdown failed" ∈ (shutdownSequence stW (some "shutdown failed")).1
    ∧ (shutdownSequence stW (some "shutdown failed")).2.queue = []
    ∧ (shutdownSequence stW (some "shutdown failed")).2.metrics.totalBodySize
        = stW.metrics.totalBodySize + qbytes stW :=
  ⟨(shutdown_order_and_drain stW (some "shutdown failed")).2.2.1
      "shutdown failed" rfl,
   (shutdown_order_and_drain stW (some "shutdown failed")).2.2.2.1,
   (shutdown_order_and_drain stW (some "shutdown failed")).2.2.2.2.1⟩

/-- C6: when the path contains "dump", the dump prints the raw body
content exactly when the body length is positive and at most 1024 bytes,
and prints the size placeholder exactly when it exceeds 1024 bytes; the
placeholder line reads "Body:        [N bytes - too large to display]"
and the raw line carries the literal body text. -/
theorem dump_body_display_rule (req : Request)
    (hdump : pathTriggersDump req.path = true) :
    ((DumpLine.bodyRaw req.body ∈ consoleDump req)
        ↔ (0 < req.body.length ∧ req.body.length ≤ 1024))
    ∧ ((DumpLine.bodyPlaceholder req.body.length ∈ consoleDump req)
        ↔ 1024 < req.body.length)
    ∧ (∀ n, DumpLine.bodyPlaceholder n ∈ consoleDump req → n = req.body.length)
    ∧ renderDumpLine (DumpLine.bodyPlaceholder req.body.length)
        = "Body:        [" ++ toString req.body.length
            ++ " bytes - too large to display]"
    ∧ renderDumpLine (DumpLine.bodyRaw req.body)
        = "Body:        " ++ bytesToString req.body := by
  refine ⟨?_, ?_, ?_, rfl, rfl⟩
  · by_cases h1 : 0 < req.body.length ∧ req.body.length ≤ 1024
    · simp [consoleDump, hdump, dumpLines, h1]
    · by_cases h2 : 1024 < req.body.length
      · simp [consoleDump, hdump, dumpLines, h1, h2]
      · simp [consoleDump, hdump, dumpLines, h1, h2]
  · by_cases h1 : 0 < req.body.length ∧ req.body.length ≤ 1024
    · simp [consoleDump, hdump, dumpLines, h1]
    · by_cases h2 : 1024 < req.body.length
      · simp [consoleDump, hdump, dumpLines, h1, h2]
      · simp [consoleDump, hdump, dumpLines, h1, h2]
  · intro n
    by_cases h1 : 0 < req.body.length ∧ req.body.length ≤ 1024
    · simp [consoleDump, hdump, dumpLines, h1]
    · by_cases h2 : 1024 < req.body.length
      · simp [consoleDump, hdump, dumpLines, h1, h2]
      · simp [consoleDump, hdump, dumpLines, h1, h2]

/-- C6 witness: a 2000-byte POST to /dump yields exactly the placeholder
"[2000 bytes - too large to display]", and a 500-byte POST to /dump
prints the literal body text. -/
theorem dump_body_display_rule_witness :
    (DumpLine.bodyPlaceholder 2000 ∈ consoleDump reqDump2000)
    ∧ renderDumpLine (DumpLine.bodyPlaceholder 2000)
        = "Body:        [2000 bytes - too large to display]"
    ∧ (DumpLine.bodyRaw reqDump500.body ∈ consoleDump reqDump500)
    ∧ renderDumpLine (DumpLine.bodyRaw reqDump500.body)
        = "Body:        " ++ bytesToString reqDump500.body := by
  have hlen2000 : reqDump2000.body.length = 2000 := by
    show (sampleBody 2000).length = 2000
    rw [sampleBody, List.length_replicate]
  have hlen500 : reqDump500.body.length = 500 := by
    show (sampleBody 500).length = 500
    rw [sampleBody, List.length_replicate]
  have h2000 := dump_body_display_rule reqDump2000 (by decide)
  have h500 := dump_body_display_rule reqDump500 (by decide)
  refine ⟨?_, ?_, ?_, h500.2.2.2.2⟩
  · have := h2000.2.1.mpr (by rw [hlen2000]; omega)
    rwa [hlen2000] at this
  · have := h2000.2.2.2.1
    rw [hlen2000] at this
    rw [this]
    rfl
  · exact h500.1.mpr (by rw [hlen500]; omega)

/-- C8: within a single handler invocation, the 200 response is produced
strictly before any metrics work (push attempt, drop count, request and
method counters) is attempted; folding the emitted actions over the state
reproduces exactly the handler's shared-state effect. -/
theorem respond_before_metrics (st : ServerState) (req : Request) :
    (requestHandlerTrace st req).head? = some (HAction.respond 200)
    ∧ (∀ i a, (requestHandlerTrace st req).get? i = some a →
        isMetricsWork a = true → 0 < i)
    ∧ (requestHandlerTrace st req).foldl applyH st = requestHandler st req := by
  refine ⟨rfl, ?_, ?_⟩
  · intro i a hget hm
    cases i with
    | zero =>
      have h0 : (requestHandlerTrace st req).get? 0
          = some (HAction.respond 200) := rfl
      rw [h0] at hget
      cases hget
      simp [isMetricsWork] at hm
    | succ n => exact Nat.succ_pos n
  · by_cases hd : pathTriggersDump req.path <;>
      by_cases hb : 0 < req.body.length <;>
        by_cases hq : st.queue.length < st.queueCap <;>
          simp [requestHandlerTrace, requestHandler, tryPush, incrementMethodCount,
            applyH, hd, hb, hq]

/-- C8 witness: the action trace of a concrete request starts with the
200 response, and replaying it reproduces the handler's effect. -/
theorem respond_before_metrics_witness :
    (requestHandlerTrace (initState 1) reqPost3).head?
        = some (HAction.respond 200)
    ∧ (requestHandlerTrace (initState 1) reqPost3).foldl applyH (initState 1)
        = requestHandler (initState 1) reqPost3 :=
  ⟨(respond_before_metrics (initState 1) reqPost3).1,
   (respond_before_metrics (initState 1) reqPost3).2.2⟩

/-- C9: the final report carries the drop percentage
`droppedBodies / totalRequests * 100` exactly when `droppedBodies > 0`
(the count itself is always present), and the average body size
`totalBodySize / totalRequests / 1024` KB exactly when
`totalBodySize > 0`, with the explicit zero case otherwise.  The exact
rationals here are what `fmt.Printf("%.2f")` then renders to two decimal
places. -/
theorem report_formulas (mx : Metrics) :
    (0 < mx.droppedBodies →
      (displayMetrics mx).droppedPct
        = some ((mx.droppedBodies : ℚ) / (mx.totalRequests : ℚ) * 100))
    ∧ (mx.droppedBodies = 0 → (displayMetrics mx).droppedPct = none)
    ∧ (displayMetrics mx).droppedCount = mx.droppedBodies
    ∧ (0 < mx.totalBodySize →
      (displayMetrics mx).avgBodyKB
        = some ((mx.totalBodySize : ℚ) / (mx.totalRequests : ℚ) / 1024))
    ∧ (mx.totalBodySize = 0 → (displayMetrics mx).avgBodyKB = none) := by
  refine ⟨?_, ?_, rfl, ?_, ?_⟩ <;> intro h <;> simp [displayMetrics, h]

/-- C9 witness: the report of a concrete metrics snapshot with one drop
out of four requests and 2048 consumed bytes. -/
theorem report_formulas_witness :
    (displayMetrics mxW).droppedPct
        = some ((mxW.droppedBodies : ℚ) / (mxW.totalRequests : ℚ) * 100)
    ∧ (displayMetrics mxW).avgBodyKB
        = some ((mxW.totalBodySize : ℚ) / (mxW.totalRequests : ℚ) / 1024)
    ∧ (displayMetrics mxW).droppedCount = mxW.droppedBodies :=
  ⟨(report_formulas mxW).1 (by decide),
   (report_formulas mxW).2.2.2.1 (by decide),
   (report_formulas mxW).2.2.1⟩

end DingDong
